import Mathlib

/-!
Shallow embedding of `src/Either.ts` (repository `franson_fp`).

The source defines a discriminated union `Either<L, R> = Left<L> | Right<R>`
whose variants are records `{ _tag: 'Left' | 'Right', value }`, together with
the combinators `left`, `right`, `isLeft`, `isRight`, `fold` and `map`.
A record whose `_tag` literal determines the payload type is exactly a
two-constructor inductive type, and TypeScript's narrowing on `_tag`
(the `switch` in `fold`, the guard in `map`) is pattern matching on it.
-/

namespace FransonFP

/-- Embeds the union `Either<L, R> = Left<L> | Right<R>` from `src/Either.ts`:
a closed two-variant sum, `mkLeft` holding the `Left` record's `value : L`
and `mkRight` holding the `Right` record's `value : R`. -/
inductive Either (L R : Type) where
  | mkLeft (value : L)
  | mkRight (value : R)
deriving DecidableEq, Repr

/-- Embeds the `_tag` discriminant field: `'Left'` on a `Left` record and
`'Right'` on a `Right` record. -/
def Either.tag {L R : Type} : Either L R → String
  | .mkLeft _ => "Left"
  | .mkRight _ => "Right"

/-- Embeds `left = (value) => ({ _tag: 'Left', value })`. -/
def left {L R : Type} (value : L) : Either L R :=
  .mkLeft value

/-- Embeds `right = (value) => ({ _tag: 'Right', value })`. -/
def right {L R : Type} (value : R) : Either L R :=
  .mkRight value

/-- Embeds `isLeft = (e) => e._tag === 'Left'`. -/
def isLeft {L R : Type} (e : Either L R) : Bool :=
  e.tag == "Left"

/-- Embeds `isRight = (e) => e._tag === 'Right'`. -/
def isRight {L R : Type} (e : Either L R) : Bool :=
  e.tag == "Right"

/-- Embeds `fold = (onLeft, onRight) => (e) => switch (e._tag) { case 'Left':
return onLeft(e.value); case 'Right': return onRight(e.value) }`. The `switch`
on the discriminant, with TypeScript narrowing `e` in each arm, is a pattern
match on the two constructors with no default arm. -/
def fold {L R T : Type} (onLeft : L → T) (onRight : R → T) (e : Either L R) : T :=
  match e with
  | .mkLeft v => onLeft v
  | .mkRight v => onRight v

/-- Embeds `map = (f) => (e) => isRight(e) ? right(f(e.value)) : e`. On the
`Right` branch the narrowed `e.value : R` is passed to `f` and rewrapped with
`right`; on the `Left` branch the original record is returned, which at the
result type `Either<L, R2>` is the same `Left` payload. -/
def map {L R R2 : Type} (f : R → R2) (e : Either L R) : Either L R2 :=
  match e with
  | .mkRight v => right (f v)
  | .mkLeft v => .mkLeft v

/-- C1: for every function `f` and every value `v`, `map f (left v) = left v`
with the payload unchanged, and the result of `map f` on any `Left`-tagged
`e` is independent of `f` (short-circuit law: `f` is never invoked). -/
theorem map_left_short_circuit {L R R2 : Type} :
    (∀ (f : R → R2) (v : L), map f (left v) = left v) ∧
    (∀ (f g : R → R2) (e : Either L R), isLeft e = true → map f e = map g e) := by
  constructor
  · intro f v
    rfl
  · intro f g e h
    cases e with
    | mkLeft v => rfl
    | mkRight v => simp [isLeft, Either.tag] at h

/-- C1 witness: the short-circuit law instantiated at `f = (· + 1)`,
`g = (· * 2)` and the concrete value `left 7 : Either Nat Nat`. -/
theorem map_left_short_circuit_witness :
    map (fun n => n + 1) (left 7 : Either Nat Nat) = left 7 ∧
    map (fun n => n + 1) (left 7 : Either Nat Nat)
      = map (fun n => n * 2) (left 7 : Either Nat Nat) :=
  ⟨(map_left_short_circuit.1) (fun n => n + 1) 7,
   (map_left_short_circuit.2) (fun n => n + 1) (fun n => n * 2) (left 7) (by decide)⟩

/-- C2: for every function `f` and every value `v`,
`map f (right v) = right (f v)` (functor application law). -/
theorem map_right_applies {L R R2 : Type} (f : R → R2) (v : R) :
    map f (right v : Either L R) = right (f v) := by
  rfl

/-- C3: for every value `v` and all handlers,
`fold onLeft onRight (left v) = onLeft v`, and the result on any
`Left`-tagged `e` is independent of `onRight` (it is never invoked). -/
theorem fold_left_applies {L R T : Type} :
    (∀ (onLeft : L → T) (onRight : R → T) (v : L),
      fold onLeft onRight (left v) = onLeft v) ∧
    (∀ (onLeft : L → T) (onRight onRight2 : R → T) (e : Either L R),
      isLeft e = true → fold onLeft onRight e = fold onLeft onRight2 e) := by
  constructor
  · intro onLeft onRight v
    rfl
  · intro onLeft onRight onRight2 e h
    cases e with
    | mkLeft v => rfl
    | mkRight v => simp [isLeft, Either.tag] at h

/-- C3 witness: `fold` on `left "bad" : Either String Nat` with concrete
handlers returns the `onLeft` result, independently of the `onRight` handler. -/
theorem fold_left_applies_witness :
    fold (fun s => "err:" ++ s) (fun _ => "ok") (left "bad" : Either String Nat)
      = "err:bad" ∧
    fold (fun s => "err:" ++ s) (fun _ => "ok") (left "bad" : Either String Nat)
      = fold (fun s => "err:" ++ s) (fun _ => "other") (left "bad" : Either String Nat) :=
  ⟨(fold_left_applies.1) (fun s => "err:" ++ s) (fun _ => "ok") "bad",
   (fold_left_applies.2) (fun s => "err:" ++ s) (fun _ => "ok") (fun _ => "other")
     (left "bad") (by decide)⟩

/-- C4: for every value `v` and all handlers,
`fold onLeft onRight (right v) = onRight v`, the result on any `Right`-tagged
`e` is independent of `onLeft` (it is never invoked), and for every `e`
exactly one branch determines the result: the `onLeft` branch when `e` is
`Left`, the `onRight` branch when `e` is `Right`. -/
theorem fold_right_applies {L R T : Type} :
    (∀ (onLeft : L → T) (onRight : R → T) (v : R),
      fold onLeft onRight (right v) = onRight v) ∧
    (∀ (onLeft onLeft2 : L → T) (onRight : R → T) (e : Either L R),
      isRight e = true → fold onLeft onRight e = fold onLeft2 onRight e) ∧
    (∀ (onLeft : L → T) (onRight : R → T) (e : Either L R),
      (∃ v, e = left v ∧ fold onLeft onRight e = onLeft v) ∨
      (∃ v, e = right v ∧ fold onLeft onRight e = onRight v)) := by
  refine ⟨?_, ?_, ?_⟩
  · intro onLeft onRight v
    rfl
  · intro onLeft onLeft2 onRight e h
    cases e with
    | mkLeft v => simp [isRight, Either.tag] at h
    | mkRight v => rfl
  · intro onLeft onRight e
    cases e with
    | mkLeft v => exact Or.inl ⟨v, rfl, rfl⟩
    | mkRight v => exact Or.inr ⟨v, rfl, rfl⟩

/-- C4 witness: `fold` on `right 5 : Either String Nat` with concrete
handlers returns the `onRight` result, independently of the `onLeft` handler. -/
theorem fold_right_applies_witness :
    fold (fun _ => 0) (fun n => n + 1) (right 5 : Either String Nat) = 6 ∧
    fold (fun _ => 0) (fun n => n + 1) (right 5 : Either String Nat)
      = fold (fun _ => 99) (fun n => n + 1) (right 5 : Either String Nat) :=
  ⟨(fold_right_applies.1) (fun _ => 0) (fun n => n + 1) 5,
   (fold_right_applies.2.1) (fun _ => 0) (fun _ => 99) (fun n => n + 1)
     (right 5) (by decide)⟩

/-- C5: for every value `v`, with no validation of the payload,
`isLeft (left v) = true`, `isRight (left v) = false`,
`isRight (right v) = true` and `isLeft (right v) = false`. -/
theorem constructors_tagged {L R : Type} (vl : L) (vr : R) :
    isLeft (left vl : Either L R) = true ∧
    isRight (left vl : Either L R) = false ∧
    isRight (right vr : Either L R) = true ∧
    isLeft (right vr : Either L R) = false := by
  refine ⟨rfl, ?_, rfl, ?_⟩ <;> simp [isLeft, isRight, left, right, Either.tag]

/-- C6: for every `e`, exactly one of `isLeft e` and `isRight e` is `true`,
and `isRight e` equals the negation of `isLeft e`. -/
theorem tags_exhaustive {L R : Type} (e : Either L R) :
    isRight e = !isLeft e ∧ (isLeft e = true ↔ isRight e = false) := by
  cases e <;> simp [isLeft, isRight, Either.tag]

/-- C7: functor identity law — for every `e`, `map (fun x => x) e = e`,
equality being structural equality of tag and payload. -/
theorem map_id {L R : Type} (e : Either L R) :
    map (fun x => x) e = e := by
  cases e <;> rfl

/-- C8: functor composition law — for every `e` and all functions `f`, `g`,
`map g (map f e) = map (fun x => g (f x)) e`. -/
theorem map_comp {L R R2 R3 : Type} (f : R → R2) (g : R2 → R3) (e : Either L R) :
    map g (map f e) = map (fun x => g (f x)) e := by
  cases e <;> rfl

/-- C9: totality of the combinators — the caller-supplied functions being
total Lean functions, every combinator returns a value on every input:
every `e` is `left v` or `right v` for some `v`, and on each variant
`isLeft`, `isRight`, `fold` and `map` all evaluate to a definite result,
`fold`'s case analysis covering both variants with no fall-through. -/
theorem combinators_total {L R R2 T : Type} (f : R → R2)
    (onLeft : L → T) (onRight : R → T) (e : Either L R) :
    (∃ v, e = left v ∧ isLeft e = true ∧ isRight e = false ∧
      fold onLeft onRight e = onLeft v ∧ map f e = left v) ∨
    (∃ v, e = right v ∧ isLeft e = false ∧ isRight e = true ∧
      fold onLeft onRight e = onRight v ∧ map f e = right (f v)) := by
  cases e with
  | mkLeft v =>
    exact Or.inl ⟨v, rfl, rfl, by simp [isRight, left, Either.tag], rfl, rfl⟩
  | mkRight v =>
    exact Or.inr ⟨v, rfl, by simp [isLeft, right, Either.tag], rfl, rfl, rfl⟩

/-- C10: `fold` with the two constructors reconstructs the original value —
for every `e`, `fold left right e = e`. -/
theorem fold_constructors_id {L R : Type} (e : Either L R) :
    fold left right e = e := by
  cases e <;> rfl

end FransonFP
